import Mathlib

/-!
Shallow embedding of the Wheel-of-Patterns `CircleDivider` React component
(src/src/App.tsx).  The component's handlers are translated as pure
functions; the React `useState` cells become the fields of
`CircleDividerState`, and each handler becomes a state transformer.
Canvas painting (strokes of the 2D context) has no effect on that state
and is therefore not part of the state transformers.
-/

namespace CircleDivider

/-- A 2D canvas coordinate, `type Point = \x7b x: number; y: number \x7d`. -/
structure Point where
  x : ℝ
  y : ℝ

/-- `type DrawnLine = \x7b start: Point; end: Point; color: string; thickness: number \x7d`.
The source field `end` is a reserved word in Lean, hence `endPoint`. -/
structure DrawnLine where
  start : Point
  endPoint : Point
  color : String
  thickness : ℕ

/-- `const canvasSize = 800`. -/
def canvasSize : ℝ := 800

/-- `const radius = canvasSize / 2.5`. -/
noncomputable def radius : ℝ := canvasSize / 2.5

/-- `const center = canvasSize / 2`. -/
noncomputable def center : ℝ := canvasSize / 2

/-- The position of division point `i` out of `divisions`, as computed in
`drawCircle` and `snapToPoint`:
`angle = (i * 360) / divisions`, `radian = (angle * Math.PI) / 180`,
`point = (center + radius * cos radian, center + radius * sin radian)`. -/
noncomputable def divisionPoint (divisions i : ℕ) : Point :=
  ⟨center + radius * Real.cos ((((i : ℝ) * 360) / (divisions : ℝ)) * Real.pi / 180),
   center + radius * Real.sin ((((i : ℝ) * 360) / (divisions : ℝ)) * Real.pi / 180)⟩

/-- `Math.sqrt(Math.pow(x - pointX, 2) + Math.pow(y - pointY, 2))`. -/
noncomputable def distance (x y px py : ℝ) : ℝ :=
  Real.sqrt ((x - px) ^ 2 + (y - py) ^ 2)

/-- One iteration of the loop inside `snapToPoint`: the accumulator holds
`(closestPoint, minDistance)`, where `none` models the initial
`minDistance = Infinity`, and the update happens when
`distance < minDistance` (strict, so the first minimum is kept). -/
noncomputable def snapStep (q : ℕ → Point) (g : ℕ → ℝ)
    (acc : Point × Option ℝ) (i : ℕ) : Point × Option ℝ :=
  match acc.2 with
  | none => (q i, some (g i))
  | some m => if g i < m then (q i, some (g i)) else acc

/-- The `for (let i = 0; i < divisions; i++)` loop of `snapToPoint`,
started from `closestPoint = (x, y)` and `minDistance = Infinity`. -/
noncomputable def snapLoop (q : ℕ → Point) (g : ℕ → ℝ) (p₀ : Point) (n : ℕ) :
    Point × Option ℝ :=
  (List.range n).foldl (snapStep q g) (p₀, none)

/-- `snapToPoint(x, y)`: scan all division points keeping the closest one,
then snap only when the minimal distance is at most 20 pixels. -/
noncomputable def snapToPoint (divisions : ℕ) (x y : ℝ) : Point :=
  let r := snapLoop (fun i => divisionPoint divisions i)
    (fun i => distance x y (divisionPoint divisions i).x (divisionPoint divisions i).y)
    ⟨x, y⟩ divisions
  match r.2 with
  | none => ⟨x, y⟩
  | some m => if m ≤ 20 then r.1 else ⟨x, y⟩

/-- Index of the first minimum of `g` on `0..n-1` (0 when `n = 0`);
used to describe what the `snapToPoint` loop computes. -/
noncomputable def bestIdx (g : ℕ → ℝ) : ℕ → ℕ
  | 0 => 0
  | n + 1 => if g n < g (bestIdx g n) then n else bestIdx g n

/-- The segments painted by `drawRuleLines` for one parsed rule, given its
`offset`: for each `i`, `startAngle = (i / divisions) * 2π` and
`endAngle = ((i + offset) % divisions / divisions) * 2π` (the rule's
`start` component is not used by the loop). -/
noncomputable def drawRuleSegments (divisions offset : ℕ) : List (Point × Point) :=
  (List.range divisions).map fun (i : ℕ) =>
    (⟨center + radius * Real.cos (((i : ℝ) / (divisions : ℝ)) * 2 * Real.pi),
      center + radius * Real.sin (((i : ℝ) / (divisions : ℝ)) * 2 * Real.pi)⟩,
     ⟨center + radius * Real.cos (((Nat.cast ((i + offset) % divisions) : ℝ) / (divisions : ℝ)) * 2 * Real.pi),
      center + radius * Real.sin (((Nat.cast ((i + offset) % divisions) : ℝ) / (divisions : ℝ)) * 2 * Real.pi)⟩)

/-- JavaScript `String.prototype.split` with a one-character separator:
`"".split(sep)` is `[""]`, and separators at the ends produce empty
tokens. -/
def splitOnChar (c : Char) : List Char → List (List Char)
  | [] => [[]]
  | x :: xs =>
    match splitOnChar c xs with
    | [] => [[]]
    | t :: ts => if x = c then [] :: t :: ts else (x :: t) :: ts

/-- JavaScript `String.prototype.trim`: strip whitespace from both ends. -/
def trimChars (l : List Char) : List Char :=
  ((l.dropWhile Char.isWhitespace).reverse.dropWhile Char.isWhitespace).reverse

/-- Value of a hexadecimal digit. -/
def hexVal (c : Char) : ℕ :=
  if c.isDigit then c.toNat - 48
  else if 'a' ≤ c ∧ c ≤ 'f' then c.toNat - 87
  else c.toNat - 55

/-- Whether `c` is a digit of the given radix (10 or 16). -/
def isRadixDigit (radix : ℕ) (c : Char) : Bool :=
  if radix = 16 then
    c.isDigit || (decide ('a' ≤ c) && decide (c ≤ 'f')) || (decide ('A' ≤ c) && decide (c ≤ 'F'))
  else c.isDigit

/-- JavaScript `parseInt(s)` (no explicit radix): skip leading whitespace,
read an optional sign, switch to base 16 after a `0x`/`0X` prefix, then
take the longest digit prefix; `none` models `NaN` (no digits at all). -/
def jsParseIntChars (l : List Char) : Option ℤ :=
  let l₁ := l.dropWhile Char.isWhitespace
  let sign : ℤ := match l₁ with
    | '-' :: _ => -1
    | _ => 1
  let l₂ : List Char := match l₁ with
    | '-' :: r => r
    | '+' :: r => r
    | r => r
  let radix : ℕ := match l₂ with
    | '0' :: 'x' :: _ => 16
    | '0' :: 'X' :: _ => 16
    | _ => 10
  let l₃ : List Char := match l₂ with
    | '0' :: 'x' :: r => r
    | '0' :: 'X' :: r => r
    | r => r
  let ds := l₃.takeWhile (isRadixDigit radix)
  if ds = [] then none
  else some (sign * (ds.foldl (fun a c => a * radix + hexVal c) 0 : ℕ))

/-- `parseInt(n.trim())` on a string token. -/
def jsParseInt (s : String) : Option ℤ :=
  jsParseIntChars (trimChars s.toList)

/-- Decimal rendering of a natural number (fuel-based so that it reduces
structurally); used for the template literal of `handleAddRule`. -/
def natDigits : ℕ → ℕ → List Char
  | 0, _ => []
  | fuel + 1, n =>
    if n < 10 then [Char.ofNat (48 + n)]
    else natDigits fuel (n / 10) ++ [Char.ofNat (48 + n % 10)]

/-- JavaScript number-to-string for an integer value (as produced by the
template literal of the new rule). -/
def intToString (i : ℤ) : String :=
  if i < 0 then String.mk ('-' :: natDigits (-i).toNat (-i).toNat)
  else String.mk (natDigits (i.toNat + 1) i.toNat)

/-- `currentRule.split('+').map(n => parseInt(n.trim()))`, destructured as
`const [start, end]`: the first two parsed values, `none` standing for a
missing token or a `NaN` result. -/
def parsedPair (text : String) : Option ℤ × Option ℤ :=
  let nums := (splitOnChar '+' text.toList).map (fun n => jsParseIntChars (trimChars n))
  (((nums.get? 0).join), ((nums.get? 1).join))

/-- `handleAddRule`, acting on the rule list: returns the new rule list and
whether the `alert(...)` branch (the explicit notification) was taken.
The rule is stored as the template string of the parsed values; a
duplicate is skipped without an alert. -/
def handleAddRule (divisions : ℕ) (currentRule : String) (rules : List String) :
    List String × Bool :=
  match parsedPair currentRule with
  | (some s, some e) =>
    if 0 ≤ s ∧ 0 ≤ e ∧ s < (divisions : ℤ) ∧ e < (divisions : ℤ) then
      let newRule := intToString s ++ "+" ++ intToString e
      if newRule ∈ rules then (rules, false)
      else (rules ++ [newRule], false)
    else (rules, true)
  | _ => (rules, true)

/-- The failure condition stated by claim C3, modelled from the spec's
words: some '+'-separated token of the input is not a valid non-negative
integer (a non-empty all-digit string), or a token's value reaches the
division count. -/
def isNonNegIntToken (t : List Char) : Bool :=
  !t.isEmpty && t.all Char.isDigit

/-- Numeric value of an all-digit token. -/
def tokenNat (t : List Char) : ℕ :=
  t.foldl (fun a c => a * 10 + (c.toNat - 48)) 0

/-- Claim C3's parse-failure condition, following the spec's words. -/
def specRuleFailure (divisions : ℕ) (text : String) : Bool :=
  match splitOnChar '+' text.toList with
  | [t₁, t₂] =>
    !isNonNegIntToken t₁ || !isNonNegIntToken t₂
      || decide (divisions ≤ tokenNat t₁) || decide (divisions ≤ tokenNat t₂)
  | _ => true

/-- The failure condition `handleAddRule` actually tests, phrased on the
parsed pair: a missing or `NaN` token, a negative value, or a value not
below the division count. -/
def addRuleRejects (divisions : ℕ) (text : String) : Bool :=
  match parsedPair text with
  | (some s, some e) =>
    if 0 ≤ s ∧ 0 ≤ e ∧ s < (divisions : ℤ) ∧ e < (divisions : ℤ) then false else true
  | _ => true

/-- The `useState` cells of the `CircleDivider` component. -/
structure CircleDividerState where
  divisions : ℕ
  rules : List String
  drawingMode : Bool
  drawingColor : String
  showRuleLines : Bool
  showOnlyPattern : Bool
  currentRule : String
  isDrawing : Bool
  startPoint : Option Point
  drawnLines : List DrawnLine
  undoStack : List (List DrawnLine)
  redoStack : List (List DrawnLine)
  showInstructions : Bool
  lineThickness : ℕ
  freeDrawing : Bool
  showRuleExplanation : Bool

/-- The initial values passed to `useState`. -/
def initialState : CircleDividerState where
  divisions := 12
  rules := []
  drawingMode := false
  drawingColor := "#000000"
  showRuleLines := true
  showOnlyPattern := false
  currentRule := ""
  isDrawing := false
  startPoint := none
  drawnLines := []
  undoStack := []
  redoStack := []
  showInstructions := true
  lineThickness := 2
  freeDrawing := false
  showRuleExplanation := false

/-- `startDrawing(event)` at canvas coordinates `(x, y)`: a no-op unless
drawing mode is on; in freehand mode only the canvas path is begun, in
point-to-point mode the snapped start point is recorded; either way
`isDrawing` becomes true. -/
noncomputable def startDrawing (s : CircleDividerState) (x y : ℝ) : CircleDividerState :=
  if !s.drawingMode then s
  else if s.freeDrawing then { s with isDrawing := true }
  else { s with startPoint := some (snapToPoint s.divisions x y), isDrawing := true }

/-- `draw(event)`: both branches only paint on the canvas context (the
freehand `lineTo`/`stroke`, or the point-to-point preview after a
`drawCircle()` re-render); no `useState` cell is written. -/
def draw (s : CircleDividerState) (x y : ℝ) : CircleDividerState :=
  s

/-- `stopDrawing(event)` at canvas coordinates `(x, y)`: when a
point-to-point stroke is active, append one `DrawnLine` from the recorded
start point to the snapped release point with the current color and
thickness; then leave the drawing state. -/
noncomputable def stopDrawing (s : CircleDividerState) (x y : ℝ) : CircleDividerState :=
  if !s.isDrawing then s
  else
    let s₁ :=
      if !s.freeDrawing then
        match s.startPoint with
        | some sp =>
          { s with drawnLines := s.drawnLines ++
              [⟨sp, snapToPoint s.divisions x y, s.drawingColor, s.lineThickness⟩] }
        | none => s
      else s
    { s₁ with isDrawing := false, startPoint := none }

/-- `handleAddRule` as a state transformer (the standalone `handleAddRule`
above gives the rule-list part); `currentRule` is cleared only when a new
rule is actually appended. -/
def handleAddRuleState (s : CircleDividerState) : CircleDividerState :=
  match parsedPair s.currentRule with
  | (some a, some b) =>
    if 0 ≤ a ∧ 0 ≤ b ∧ a < (s.divisions : ℤ) ∧ b < (s.divisions : ℤ) then
      let newRule := intToString a ++ "+" ++ intToString b
      if newRule ∈ s.rules then s
      else { s with rules := s.rules ++ [newRule], currentRule := "" }
    else s
  | _ => s

/-- `handleRemoveRule(ruleToRemove)`: keep the rules that differ from it. -/
def handleRemoveRule (s : CircleDividerState) (ruleToRemove : String) : CircleDividerState :=
  { s with rules := s.rules.filter (fun rule => rule ≠ ruleToRemove) }

/-- `handleUndo`: when the undo stack is non-empty, move the current manual
layer to the redo stack and restore the top undo snapshot. -/
def handleUndo (s : CircleDividerState) : CircleDividerState :=
  if s.undoStack.length > 0 then
    { s with
      redoStack := s.redoStack ++ [s.drawnLines]
      drawnLines := s.undoStack.getLastD []
      undoStack := s.undoStack.dropLast }
  else s

/-- `handleRedo`: symmetric to `handleUndo`. -/
def handleRedo (s : CircleDividerState) : CircleDividerState :=
  if s.redoStack.length > 0 then
    { s with
      undoStack := s.undoStack ++ [s.drawnLines]
      drawnLines := s.redoStack.getLastD []
      redoStack := s.redoStack.dropLast }
  else s

/-- `handleResetDrawing`: push the current manual layer onto the undo
stack, clear the manual layer, clear the redo stack. -/
def handleResetDrawing (s : CircleDividerState) : CircleDividerState :=
  { s with
    undoStack := s.undoStack ++ [s.drawnLines]
    drawnLines := []
    redoStack := [] }

/-- `handleResetAll`: restore divisions, rules, drawing mode, color and the
two visibility flags to their defaults, then `handleResetDrawing()`. -/
def handleResetAll (s : CircleDividerState) : CircleDividerState :=
  handleResetDrawing
    { s with
      divisions := 12
      rules := []
      drawingMode := false
      drawingColor := "#000000"
      showRuleLines := true
      showOnlyPattern := false }

/-- Claim C1: ending a point-to-point stroke commits exactly one
`DrawnLine` from the recorded start point to the snapped end point with
the current color and thickness — but, contrary to the claim,
`stopDrawing` leaves the undo stack and the redo stack exactly as they
were: no pre-commit snapshot is pushed and nothing is cleared. -/
theorem stopDrawing_commits_without_history_push
    (s : CircleDividerState) (x y : ℝ) (p : Point)
    (hdraw : s.isDrawing = true) (hfree : s.freeDrawing = false)
    (hstart : s.startPoint = some p) :
    (stopDrawing s x y).drawnLines
      = s.drawnLines ++ [⟨p, snapToPoint s.divisions x y, s.drawingColor, s.lineThickness⟩]
    ∧ (stopDrawing s x y).undoStack = s.undoStack
    ∧ (stopDrawing s x y).redoStack = s.redoStack := by
  simp [stopDrawing, hdraw, hfree, hstart]

/-- Witness for C1: a concrete active point-to-point stroke. -/
theorem stopDrawing_commits_without_history_push_witness :
    (({ initialState with isDrawing := true, startPoint := some ⟨0, 0⟩ }
        : CircleDividerState).isDrawing = true
      ∧ ({ initialState with isDrawing := true, startPoint := some ⟨0, 0⟩ }
        : CircleDividerState).freeDrawing = false
      ∧ ({ initialState with isDrawing := true, startPoint := some ⟨0, 0⟩ }
        : CircleDividerState).startPoint = some ⟨0, 0⟩)
    ∧ ((stopDrawing { initialState with isDrawing := true, startPoint := some ⟨0, 0⟩ } 5 5).drawnLines
        = ({ initialState with isDrawing := true, startPoint := some ⟨0, 0⟩ }
            : CircleDividerState).drawnLines ++
          [⟨⟨0, 0⟩,
            snapToPoint ({ initialState with isDrawing := true, startPoint := some ⟨0, 0⟩ }
              : CircleDividerState).divisions 5 5,
            ({ initialState with isDrawing := true, startPoint := some ⟨0, 0⟩ }
              : CircleDividerState).drawingColor,
            ({ initialState with isDrawing := true, startPoint := some ⟨0, 0⟩ }
              : CircleDividerState).lineThickness⟩]
      ∧ (stopDrawing { initialState with isDrawing := true, startPoint := some ⟨0, 0⟩ } 5 5).undoStack
        = ({ initialState with isDrawing := true, startPoint := some ⟨0, 0⟩ }
            : CircleDividerState).undoStack
      ∧ (stopDrawing { initialState with isDrawing := true, startPoint := some ⟨0, 0⟩ } 5 5).redoStack
        = ({ initialState with isDrawing := true, startPoint := some ⟨0, 0⟩ }
            : CircleDividerState).redoStack) :=
  ⟨⟨rfl, rfl, rfl⟩,
   stopDrawing_commits_without_history_push
     { initialState with isDrawing := true, startPoint := some ⟨0, 0⟩ } 5 5 ⟨0, 0⟩ rfl rfl rfl⟩

/-- Claim C2: after committing two point-to-point strokes from a fresh
state, undo, undo, redo.  Because `stopDrawing` never pushes onto the
undo stack, both undos and the redo are no-ops, and the manual layer
still holds both lines (length 2), not `[A]` as the claim expects. -/
theorem stroke_undo_redo_sequence :
    (handleRedo (handleUndo (handleUndo
      (stopDrawing (startDrawing (stopDrawing (startDrawing
        { initialState with drawingMode := true } 100 100) 600 400) 200 200)
        650 450)))).drawnLines.length = 2 := by
  rfl

/-- Claim C7: `handleResetAll` restores division count 12, empties the
rule set and the manual layer, restores the default visibility flags,
pushes the pre-reset manual layer onto the undo stack and clears the
redo stack. -/
theorem resetAll_state (s : CircleDividerState) :
    (handleResetAll s).divisions = 12
    ∧ (handleResetAll s).rules = []
    ∧ (handleResetAll s).drawnLines = []
    ∧ (handleResetAll s).showRuleLines = true
    ∧ (handleResetAll s).showOnlyPattern = false
    ∧ (handleResetAll s).undoStack = s.undoStack ++ [s.drawnLines]
    ∧ (handleResetAll s).redoStack = [] :=
  ⟨rfl, rfl, rfl, rfl, rfl, rfl, rfl⟩

/-- Claim C8: removing an absent rule, undoing on an empty undo stack and
redoing on an empty redo stack each leave the whole state unchanged. -/
theorem removeRule_undo_redo_noops (s : CircleDividerState) (r : String) :
    (r ∉ s.rules → handleRemoveRule s r = s)
    ∧ (s.undoStack = [] → handleUndo s = s)
    ∧ (s.redoStack = [] → handleRedo s = s) := by
  refine ⟨fun hr => ?_, fun hu => ?_, fun hd => ?_⟩
  · unfold handleRemoveRule
    have hfilter : s.rules.filter (fun rule => rule ≠ r) = s.rules := by
      apply List.filter_eq_self.mpr
      intro a ha
      simp only [ne_eq, decide_eq_true_eq]
      rintro rfl
      exact hr ha
    rw [hfilter]
  · simp [handleUndo, hu]
  · simp [handleRedo, hd]

/-- Witness for C8: the initial state and a rule string it does not hold. -/
theorem removeRule_undo_redo_noops_witness :
    ("0+3" ∉ initialState.rules
      ∧ initialState.undoStack = []
      ∧ initialState.redoStack = [])
    ∧ (handleRemoveRule initialState "0+3" = initialState
      ∧ handleUndo initialState = initialState
      ∧ handleRedo initialState = initialState) :=
  ⟨⟨by decide, rfl, rfl⟩,
   (removeRule_undo_redo_noops initialState "0+3").1 (by decide),
   (removeRule_undo_redo_noops initialState "0+3").2.1 rfl,
   (removeRule_undo_redo_noops initialState "0+3").2.2 rfl⟩

/-- Claim C10: with freehand mode active, a stroke (`startDrawing`,
`draw`, `stopDrawing`) never changes the manual layer, the undo stack or
the redo stack — freehand paint goes to the canvas context only and is
never recorded as data. -/
theorem freehand_stroke_preserves_data
    (s : CircleDividerState) (x₁ y₁ x₂ y₂ x₃ y₃ : ℝ)
    (hfree : s.freeDrawing = true) :
    ((startDrawing s x₁ y₁).drawnLines = s.drawnLines
      ∧ (startDrawing s x₁ y₁).undoStack = s.undoStack
      ∧ (startDrawing s x₁ y₁).redoStack = s.redoStack)
    ∧ draw s x₂ y₂ = s
    ∧ ((stopDrawing s x₃ y₃).drawnLines = s.drawnLines
      ∧ (stopDrawing s x₃ y₃).undoStack = s.undoStack
      ∧ (stopDrawing s x₃ y₃).redoStack = s.redoStack) := by
  refine ⟨?_, rfl, ?_⟩
  · unfold startDrawing
    cases hm : s.drawingMode <;> simp [hm, hfree]
  · unfold stopDrawing
    cases hi : s.isDrawing <;> simp [hi, hfree]

/-- Witness for C10: the initial state with freehand mode switched on. -/
theorem freehand_stroke_preserves_data_witness :
    ({ initialState with freeDrawing := true } : CircleDividerState).freeDrawing = true
    ∧ (((startDrawing { initialState with freeDrawing := true } 1 2).drawnLines
        = ({ initialState with freeDrawing := true } : CircleDividerState).drawnLines
      ∧ (startDrawing { initialState with freeDrawing := true } 1 2).undoStack
        = ({ initialState with freeDrawing := true } : CircleDividerState).undoStack
      ∧ (startDrawing { initialState with freeDrawing := true } 1 2).redoStack
        = ({ initialState with freeDrawing := true } : CircleDividerState).redoStack)
    ∧ draw { initialState with freeDrawing := true } 3 4
        = { initialState with freeDrawing := true }
    ∧ ((stopDrawing { initialState with freeDrawing := true } 5 6).drawnLines
        = ({ initialState with freeDrawing := true } : CircleDividerState).drawnLines
      ∧ (stopDrawing { initialState with freeDrawing := true } 5 6).undoStack
        = ({ initialState with freeDrawing := true } : CircleDividerState).undoStack
      ∧ (stopDrawing { initialState with freeDrawing := true } 5 6).redoStack
        = ({ initialState with freeDrawing := true } : CircleDividerState).redoStack)) :=
  ⟨rfl, freehand_stroke_preserves_data { initialState with freeDrawing := true } 1 2 3 4 5 6 rfl⟩

/-- Counterexample to claim C3 as stated: on input `"0+3.5"` with 12
divisions the token `"3.5"` is not a valid non-negative integer, so the
spec's condition demands a failure, yet `parseInt` reads the prefix `3`
and the call silently adds the rule `"0+3"`. -/
theorem addRule_spec_condition_mismatch :
    specRuleFailure 12 "0+3.5" = true
    ∧ handleAddRule 12 "0+3.5" [] = (["0+3"], false)
    ∧ ¬ (((handleAddRule 12 "0+3.5" []).2 = true)
          ↔ specRuleFailure 12 "0+3.5" = true) := by
  refine ⟨by decide, by decide, by decide⟩

/-- Claim C3 (amended): `handleAddRule` raises the notification exactly
when `parseInt` on one of the first two trimmed '+'-separated tokens
gives `NaN` (or the token is missing), or a parsed value is negative or
at least the division count; and whenever it raises the notification the
rule set is unchanged. -/
theorem addRule_failure_characterization
    (divisions : ℕ) (text : String) (rules : List String) :
    (handleAddRule divisions text rules).2 = addRuleRejects divisions text
    ∧ ((handleAddRule divisions text rules).1 = rules
        ∨ addRuleRejects divisions text = false) := by
  unfold handleAddRule addRuleRejects
  rcases hp : parsedPair text with ⟨os, oe⟩
  rcases os with _ | a <;> rcases oe with _ | b
  · exact ⟨rfl, Or.inl rfl⟩
  · exact ⟨rfl, Or.inl rfl⟩
  · exact ⟨rfl, Or.inl rfl⟩
  · simp only []
    split_ifs with hcond hdup
    · exact ⟨rfl, Or.inr rfl⟩
    · exact ⟨rfl, Or.inr rfl⟩
    · exact ⟨rfl, Or.inl rfl⟩

/-- Claim C5: submitting a rule whose canonical string is already in the
rule set changes nothing and raises no notification. -/
theorem addRule_duplicate_ignored
    (divisions : ℕ) (text : String) (rules : List String) (a b : ℤ)
    (hp : parsedPair text = (some a, some b))
    (hrange : 0 ≤ a ∧ 0 ≤ b ∧ a < (divisions : ℤ) ∧ b < (divisions : ℤ))
    (hmem : intToString a ++ "+" ++ intToString b ∈ rules) :
    handleAddRule divisions text rules = (rules, false) := by
  unfold handleAddRule
  rw [hp]
  simp only [if_pos hrange, if_pos hmem]

/-- Witness for C5: adding `"0+3"` twice with 12 divisions leaves the rule
set holding it exactly once. -/
theorem addRule_duplicate_ignored_witness :
    (parsedPair "0+3" = (some 0, some 3)
      ∧ ((0:ℤ) ≤ 0 ∧ (0:ℤ) ≤ 3 ∧ (0:ℤ) < ((12:ℕ):ℤ) ∧ (3:ℤ) < ((12:ℕ):ℤ))
      ∧ intToString 0 ++ "+" ++ intToString 3 ∈ (handleAddRule 12 "0+3" []).1)
    ∧ handleAddRule 12 "0+3" ((handleAddRule 12 "0+3" []).1)
        = ((handleAddRule 12 "0+3" []).1, false)
    ∧ ((handleAddRule 12 "0+3" []).1).count "0+3" = 1 :=
  ⟨⟨by decide, by decide, by decide⟩,
   addRule_duplicate_ignored 12 "0+3" (handleAddRule 12 "0+3" []).1 0 3
     (by decide) (by decide) (by decide),
   by decide⟩

/-- The angle `(j * 360 / n) * π / 180` computed by `drawCircle` and
`snapToPoint` equals the angle `(j / n) * 2 * π` computed by
`drawRuleLines`. -/
theorem ruleAngle_eq (j n : ℕ) :
    (((j : ℝ) * 360) / (n : ℝ)) * Real.pi / 180 = ((j : ℝ) / (n : ℝ)) * 2 * Real.pi := by
  ring

/-- Claim C9: for every division count in `[3, 36]` and every index below
it, the division point sits at the stated angle formula and at exact
distance `radius` from the center. -/
theorem divisionPoint_on_circle (N i : ℕ) (h₁ : 3 ≤ N) (h₂ : N ≤ 36) (hi : i < N) :
    (divisionPoint N i).x
        = center + radius * Real.cos ((((i : ℝ) * 360) / (N : ℝ)) * Real.pi / 180)
    ∧ (divisionPoint N i).y
        = center + radius * Real.sin ((((i : ℝ) * 360) / (N : ℝ)) * Real.pi / 180)
    ∧ distance (divisionPoint N i).x (divisionPoint N i).y center center = radius := by
  refine ⟨rfl, rfl, ?_⟩
  have hr : (0:ℝ) ≤ radius := by
    unfold radius canvasSize
    norm_num
  unfold distance divisionPoint
  simp only
  set A := (((i : ℝ) * 360) / (N : ℝ)) * Real.pi / 180 with hA
  have key : (center + radius * Real.cos A - center) ^ 2
      + (center + radius * Real.sin A - center) ^ 2 = radius ^ 2 := by
    have h := Real.cos_sq_add_sin_sq A
    nlinarith [h]
  rw [key, Real.sqrt_sq hr]

/-- Witness for C9: division point 0 of the default 12 divisions. -/
theorem divisionPoint_on_circle_witness :
    (3 ≤ 12 ∧ 12 ≤ 36 ∧ 0 < 12)
    ∧ ((divisionPoint 12 0).x
        = center + radius * Real.cos ((((0 : ℕ) : ℝ) * 360 / ((12 : ℕ) : ℝ)) * Real.pi / 180)
      ∧ (divisionPoint 12 0).y
        = center + radius * Real.sin ((((0 : ℕ) : ℝ) * 360 / ((12 : ℕ) : ℝ)) * Real.pi / 180)
      ∧ distance (divisionPoint 12 0).x (divisionPoint 12 0).y center center = radius) :=
  ⟨⟨by norm_num, by norm_num, by norm_num⟩,
   divisionPoint_on_circle 12 0 (by norm_num) (by norm_num) (by norm_num)⟩

/-- Claim C6: expanding a rule with the given `offset` over `N` division
points yields exactly `N` segments, the `i`-th running from division
point `i` to division point `(i + offset) % N`; with `offset = 0` every
segment degenerates to a self-loop and none is filtered out. -/
theorem drawRuleSegments_spec (divisions offset : ℕ) (hd : 0 < divisions) :
    (drawRuleSegments divisions offset).length = divisions
    ∧ (∀ i, i < divisions →
        (drawRuleSegments divisions offset).get? i
          = some (divisionPoint divisions i,
                  divisionPoint divisions ((i + offset) % divisions)))
    ∧ (offset = 0 → ∀ i, i < divisions →
        (drawRuleSegments divisions offset).get? i
          = some (divisionPoint divisions i, divisionPoint divisions i)) := by
  have h2 : ∀ i, i < divisions →
      (drawRuleSegments divisions offset).get? i
        = some (divisionPoint divisions i,
                divisionPoint divisions ((i + offset) % divisions)) := by
    intro i hi
    unfold drawRuleSegments
    rw [List.get?_map, List.get?_range hi]
    simp only [Option.map_some']
    unfold divisionPoint
    rw [ruleAngle_eq i divisions, ruleAngle_eq ((i + offset) % divisions) divisions]
  refine ⟨by simp [drawRuleSegments], h2, ?_⟩
  intro h0 i hi
  subst h0
  have h := h2 i hi
  rwa [Nat.add_zero, Nat.mod_eq_of_lt hi] at h

/-- Witness for C6: the default 12 divisions with the rule offset 3. -/
theorem drawRuleSegments_spec_witness :
    0 < 12
    ∧ ((drawRuleSegments 12 3).length = 12
      ∧ (∀ i, i < 12 →
          (drawRuleSegments 12 3).get? i
            = some (divisionPoint 12 i, divisionPoint 12 ((i + 3) % 12)))
      ∧ (3 = 0 → ∀ i, i < 12 →
          (drawRuleSegments 12 3).get? i
            = some (divisionPoint 12 i, divisionPoint 12 i))) :=
  ⟨by norm_num, drawRuleSegments_spec 12 3 (by norm_num)⟩

/-- Unfolding one iteration of the `snapToPoint` loop. -/
theorem snapLoop_succ (q : ℕ → Point) (g : ℕ → ℝ) (p₀ : Point) (n : ℕ) :
    snapLoop q g p₀ (n + 1) = snapStep q g (snapLoop q g p₀ n) n := by
  unfold snapLoop
  rw [List.range_succ, List.foldl_append]
  rfl

/-- The first-minimum index is within bounds. -/
theorem bestIdx_lt (g : ℕ → ℝ) (n : ℕ) : bestIdx g (n + 1) < n + 1 := by
  induction n with
  | zero => simp [bestIdx]
  | succ m ih =>
    rw [show bestIdx g (m + 2)
        = if g (m + 1) < g (bestIdx g (m + 1)) then m + 1 else bestIdx g (m + 1) from rfl]
    split
    · omega
    · exact Nat.lt_succ_of_lt ih

/-- `bestIdx` reaches a minimal value of `g` on `0..n`. -/
theorem bestIdx_min (g : ℕ → ℝ) (n : ℕ) :
    ∀ k, k < n + 1 → g (bestIdx g (n + 1)) ≤ g k := by
  induction n with
  | zero =>
    intro k hk
    have hk0 : k = 0 := by omega
    subst hk0
    simp [bestIdx]
  | succ m ih =>
    intro k hk
    rw [show bestIdx g (m + 2)
        = if g (m + 1) < g (bestIdx g (m + 1)) then m + 1 else bestIdx g (m + 1) from rfl]
    by_cases h : g (m + 1) < g (bestIdx g (m + 1))
    · rw [if_pos h]
      rcases Nat.lt_succ_iff_lt_or_eq.mp hk with hk' | hk'
      · exact le_of_lt (lt_of_lt_of_le h (ih k hk'))
      · subst hk'
        exact le_refl _
    · rw [if_neg h]
      rcases Nat.lt_succ_iff_lt_or_eq.mp hk with hk' | hk'
      · exact ih k hk'
      · subst hk'
        exact not_lt.mp h

/-- `bestIdx` is the FIRST minimum: every earlier index has a strictly
larger value of `g`. -/
theorem bestIdx_first (g : ℕ → ℝ) (n : ℕ) :
    ∀ k, k < bestIdx g (n + 1) → g (bestIdx g (n + 1)) < g k := by
  induction n with
  | zero =>
    intro k hk
    have hb : bestIdx g 1 = 0 := by simp [bestIdx]
    rw [hb] at hk
    exact absurd hk (Nat.not_lt_zero k)
  | succ m ih =>
    intro k hk
    rw [show bestIdx g (m + 2)
        = if g (m + 1) < g (bestIdx g (m + 1)) then m + 1 else bestIdx g (m + 1) from rfl]
      at hk ⊢
    by_cases h : g (m + 1) < g (bestIdx g (m + 1))
    · rw [if_pos h] at hk ⊢
      exact lt_of_lt_of_le h (bestIdx_min g m k hk)
    · rw [if_neg h] at hk ⊢
      exact ih k hk

/-- The `snapToPoint` loop computes the first-minimum division point and
its distance. -/
theorem snapLoop_eq (q : ℕ → Point) (g : ℕ → ℝ) (p₀ : Point) (n : ℕ) :
    snapLoop q g p₀ (n + 1)
      = (q (bestIdx g (n + 1)), some (g (bestIdx g (n + 1)))) := by
  induction n with
  | zero =>
    have hb : bestIdx g 1 = 0 := by simp [bestIdx]
    rw [hb]
    unfold snapLoop
    rfl
  | succ m ih =>
    rw [snapLoop_succ, ih]
    show snapStep q g _ _ = _
    unfold snapStep
    simp only
    rw [show bestIdx g (m + 2)
        = if g (m + 1) < g (bestIdx g (m + 1)) then m + 1 else bestIdx g (m + 1) from rfl]
    split
    · rfl
    · rfl

/-- An index that attains the minimum and beats every earlier index
strictly is exactly `bestIdx`. -/
theorem bestIdx_unique (g : ℕ → ℝ) (n j : ℕ) (hj : j < n + 1)
    (hmin : ∀ k, k < n + 1 → g j ≤ g k)
    (hfirst : ∀ k, k < j → g j < g k) :
    j = bestIdx g (n + 1) := by
  rcases lt_trichotomy j (bestIdx g (n + 1)) with h | h | h
  · exfalso
    have h1 : g (bestIdx g (n + 1)) < g j := bestIdx_first g n j h
    have h2 : g j ≤ g (bestIdx g (n + 1)) := hmin _ (bestIdx_lt g n)
    exact absurd (lt_of_lt_of_le h1 h2) (lt_irrefl _)
  · exact h
  · exfalso
    have h1 : g j < g (bestIdx g (n + 1)) := hfirst _ h
    have h2 : g (bestIdx g (n + 1)) ≤ g j := bestIdx_min g n j hj
    exact absurd (lt_of_lt_of_le h1 h2) (lt_irrefl _)

/-- Claim C4: whenever `j` is the first index (in order `0..N-1`) whose
division point is at minimal Euclidean distance from the input,
`snapToPoint` returns that division point if the distance is at most 20
pixels and the unchanged input point otherwise. -/
theorem snapToPoint_spec (divisions : ℕ) (x y : ℝ) (hd : 0 < divisions)
    (j : ℕ) (hj : j < divisions)
    (hmin : ∀ k, k < divisions →
      distance x y (divisionPoint divisions j).x (divisionPoint divisions j).y
        ≤ distance x y (divisionPoint divisions k).x (divisionPoint divisions k).y)
    (hfirst : ∀ k, k < j →
      distance x y (divisionPoint divisions j).x (divisionPoint divisions j).y
        < distance x y (divisionPoint divisions k).x (divisionPoint divisions k).y) :
    (distance x y (divisionPoint divisions j).x (divisionPoint divisions j).y ≤ 20 →
      snapToPoint divisions x y = divisionPoint divisions j)
    ∧ (20 < distance x y (divisionPoint divisions j).x (divisionPoint divisions j).y →
      snapToPoint divisions x y = ⟨x, y⟩) := by
  obtain ⟨n, rfl⟩ : ∃ n, divisions = n + 1 := ⟨divisions - 1, by omega⟩
  have hjb : j = bestIdx
      (fun i => distance x y (divisionPoint (n + 1) i).x (divisionPoint (n + 1) i).y)
      (n + 1) :=
    bestIdx_unique _ n j hj hmin hfirst
  unfold snapToPoint
  rw [snapLoop_eq]
  simp only
  rw [← hjb]
  constructor
  · intro h
    rw [if_pos h]
  · intro h
    rw [if_neg (not_le.mpr h)]

/-- Witness for C4: with a single division point, the input `(720, 400)`
makes index 0 trivially the first minimum. -/
theorem snapToPoint_spec_witness :
    (0 < 1 ∧ 0 < 1
      ∧ (∀ k, k < 1 →
          distance 720 400 (divisionPoint 1 0).x (divisionPoint 1 0).y
            ≤ distance 720 400 (divisionPoint 1 k).x (divisionPoint 1 k).y)
      ∧ (∀ k, k < 0 →
          distance 720 400 (divisionPoint 1 0).x (divisionPoint 1 0).y
            < distance 720 400 (divisionPoint 1 k).x (divisionPoint 1 k).y))
    ∧ ((distance 720 400 (divisionPoint 1 0).x (divisionPoint 1 0).y ≤ 20 →
        snapToPoint 1 720 400 = divisionPoint 1 0)
      ∧ (20 < distance 720 400 (divisionPoint 1 0).x (divisionPoint 1 0).y →
        snapToPoint 1 720 400 = ⟨720, 400⟩)) :=
  ⟨⟨by norm_num, by norm_num,
    fun k hk => by
      have hk0 : k = 0 := by omega
      subst hk0
      exact le_refl _,
    fun k hk => absurd hk (Nat.not_lt_zero k)⟩,
   snapToPoint_spec 1 720 400 (by norm_num) 0 (by norm_num)
     (fun k hk => by
       have hk0 : k = 0 := by omega
       subst hk0
       exact le_refl _)
     (fun k hk => absurd hk (Nat.not_lt_zero k))⟩

end CircleDivider

